import Mathlib

/-!
Verification of the Illarion server world tick engine (`src/World.cpp`)
against its natural-language specification.

The C++ source is shallowly embedded: each World member function that the
claims touch is translated into an executable Lean definition over explicit
state.  Machine integers are modelled as `Int` (or `Nat` where the source
value is provably non-negative); C integer division and remainder are
modelled with `Int.tdiv` / `Int.tmod` (truncation, as in C++) or `Nat`
division where the operands are non-negative.
-/

namespace Illarion

/-- Absolute value on `Int`, mirroring `std::abs` on integers. -/
def cAbs (x : Int) : Int := if x < 0 then -x else x

theorem cAbs_le_iff (x y : Int) : cAbs x ≤ y ↔ -y ≤ x ∧ x ≤ y := by
  unfold cAbs; split <;> omega

theorem lt_cAbs_iff (x y : Int) : y < cAbs x ↔ x < -y ∨ y < x := by
  unfold cAbs; split <;> omega

/-! ## Tick driver (`World::turntheworld`, World.cpp lines 91-106)

The driver state holds `usedAP` (total action points consumed since start)
and `ap` (the action points granted in the current tick).  Elapsed wall time
is passed in as a non-negative millisecond count (the C++ source measures it
from a monotonic clock, so it is never negative, and C++ integer division
on non-negative operands is floor division, i.e. `Nat` division after the
cast). -/

structure TickState where
  usedAP : Int
  ap : Int
  deriving Repr, DecidableEq

/-- The three per-population passes invoked by the tick driver. -/
inductive Pass where
  | players
  | monsters
  | npcs
  deriving Repr, DecidableEq

/-- Embedding of `World::turntheworld`: computes
`ap = elapsed / MIN_AP_UPDATE - usedAP`; when `ap > 0` it adds `ap` to
`usedAP` and runs the passes players, monsters, NPCs in that order
(returned here as the list of passes executed). -/
def turntheworld (minApUpdate elapsedMs : Nat) (s : TickState) : TickState × List Pass :=
  let ap : Int := ((elapsedMs / minApUpdate : Nat) : Int) - s.usedAP
  if 0 < ap then
    ({ usedAP := s.usedAP + ap, ap := ap }, [Pass.players, Pass.monsters, Pass.npcs])
  else
    ({ s with ap := ap }, [])

/-! ## In-game day boundary (`getNextIGDayTime`, World.cpp lines 610-631)

The function computes the Unix time of the next in-game day boundary (the
subsequent conversion to the monotonic scheduler clock is not modelled).
`illarionTimeFactor` and `illarionBirthTime` are configuration constants;
they are passed as parameters.  The C++ `%` on `time_t` is truncation
remainder, embedded as `Int.tmod`. -/

def getNextIGDayTime (currUnixtime : Int) (isDst : Bool) (illarionBirthTime : Int)
    (illarionTimeFactor : Int) : Int :=
  let secondsInHour : Int := 60 * 60
  let t := if isDst then currUnixtime + secondsInHour else currUnixtime
  let realSecondsInIllarionDay := Int.tdiv (secondsInHour * 24) illarionTimeFactor
  let t := t - illarionBirthTime
  let t := t - Int.tmod t realSecondsInIllarionDay
  t + realSecondsInIllarionDay

/-- The boundary formula exactly as the specification states it, with floor
division and a final re-addition of `illarionBirthTime`. -/
def specIGDayBoundary (currUnixtime : Int) (isDst : Bool) (illarionBirthTime : Int)
    (illarionTimeFactor : Int) : Int :=
  let t := if isDst then currUnixtime + 3600 else currUnixtime
  let realSecondsInIllarionDay := Int.tdiv 86400 illarionTimeFactor
  (Int.fdiv (t - illarionBirthTime) realSecondsInIllarionDay + 1) * realSecondsInIllarionDay +
    illarionBirthTime

/-- C1: each invocation of `turntheworld` sets `ap` to
`floor(elapsed / MIN_AP_UPDATE) - usedAP`; when `ap > 0` it adds `ap` to
`usedAP` and runs the passes players, monsters, NPCs in that order; when
`ap <= 0` it leaves `usedAP` unchanged and runs no pass.  Consequently
`usedAP` is monotone non-decreasing and (assuming the ledger invariant held
before the call, as it does from startup where `usedAP = 0`) never exceeds
`floor(elapsed / MIN_AP_UPDATE)`. -/
theorem turntheworld_ap_ledger (minApUpdate elapsedMs : Nat) (s : TickState)
    (hinv : s.usedAP ≤ ((elapsedMs / minApUpdate : Nat) : Int)) :
    (turntheworld minApUpdate elapsedMs s).1.ap
        = ((elapsedMs / minApUpdate : Nat) : Int) - s.usedAP ∧
    (0 < (turntheworld minApUpdate elapsedMs s).1.ap →
      (turntheworld minApUpdate elapsedMs s).1.usedAP
          = s.usedAP + (turntheworld minApUpdate elapsedMs s).1.ap ∧
      (turntheworld minApUpdate elapsedMs s).2 = [Pass.players, Pass.monsters, Pass.npcs]) ∧
    ((turntheworld minApUpdate elapsedMs s).1.ap ≤ 0 →
      (turntheworld minApUpdate elapsedMs s).1.usedAP = s.usedAP ∧
      (turntheworld minApUpdate elapsedMs s).2 = []) ∧
    s.usedAP ≤ (turntheworld minApUpdate elapsedMs s).1.usedAP ∧
    (turntheworld minApUpdate elapsedMs s).1.usedAP ≤ ((elapsedMs / minApUpdate : Nat) : Int) := by
  simp only [turntheworld]
  split <;> simp <;> omega

/-- Witness for C1 at `MIN_AP_UPDATE = 100`, `elapsed = 220 ms`, fresh state:
the granted `ap` is 2 and the ledger bound holds. -/
theorem turntheworld_ap_ledger_witness :
    (turntheworld 100 220 ⟨0, 0⟩).1.ap = ((220 / 100 : Nat) : Int) - 0 :=
  (turntheworld_ap_ledger 100 220 ⟨0, 0⟩ (by decide)).1

/-- C2 counterexample: with `illarionBirthTime = 100`, `illarionTimeFactor = 3`
and current Unix time 30000 (no DST), the code computes 57600 but the
specification's formula (which re-adds `illarionBirthTime` at the end)
gives 57700. -/
theorem getNextIGDayTime_ne_spec_formula :
    getNextIGDayTime 30000 false 100 3 = 57600 ∧
    specIGDayBoundary 30000 false 100 3 = 57700 ∧
    getNextIGDayTime 30000 false 100 3 ≠ specIGDayBoundary 30000 false 100 3 := by
  decide

/-- C2 amended: the next in-game day boundary equals
`((t' - illarionBirthTime) / realSecondsInIllarionDay + 1) * realSecondsInIllarionDay`
(floor division), WITHOUT re-adding `illarionBirthTime`, where `t'` is the
current Unix time plus 3600 if DST is active and
`realSecondsInIllarionDay = 86400 / illarionTimeFactor`. -/
theorem getNextIGDayTime_corrected (t birth factor : Int) (isDst : Bool)
    (hr : 0 < Int.tdiv 86400 factor)
    (ht : birth ≤ (if isDst then t + 3600 else t)) :
    getNextIGDayTime t isDst birth factor
      = (Int.fdiv ((if isDst then t + 3600 else t) - birth) (Int.tdiv 86400 factor) + 1)
          * Int.tdiv 86400 factor := by
  have e1 : ((3600 : Int) * 24) = 86400 := by norm_num
  have e2 : ((60 : Int) * 60) = 3600 := by norm_num
  simp only [getNextIGDayTime, e2, e1]
  set r := Int.tdiv 86400 factor with hrdef
  set a := (if isDst then t + 3600 else t) - birth with hadef
  have ha : 0 ≤ a := by omega
  rw [Int.tmod_eq_emod ha (le_of_lt hr), Int.fdiv_eq_ediv a (le_of_lt hr)]
  have h := Int.ediv_add_emod a r
  clear_value r a
  linear_combination -h

/-- Witness for C2's amended theorem at the spec's own scenario numbers
(`illarionTimeFactor = 3`, `illarionBirthTime = 0`, `t = 30000`, no DST). -/
theorem getNextIGDayTime_corrected_witness :
    getNextIGDayTime 30000 false 0 3
      = (Int.fdiv ((if false then (30000 : Int) + 3600 else 30000) - 0) (Int.tdiv 86400 3) + 1)
          * Int.tdiv 86400 3 :=
  getNextIGDayTime_corrected 30000 0 3 false (by decide) (by decide)

/-! ## Player pass (`World::checkPlayers`, World.cpp lines 108-168)

Each player carries the fields the pass reads and writes.  Collaborator
calls that do not change player state (logging, command draining, fight
mode, long-time actions) are reflected only where a claim needs them;
AP/FP crediting, the effects tick, the keepalive window, the save budget
and the shutdown of timed-out connections are modelled faithfully. -/

structure SimPlayer where
  online : Bool
  lastkeepalive : Int
  lastsavetime : Int
  actionPoints : Int
  fightPoints : Int
  effectsTicks : Nat
  shutdownSent : Bool
  deriving Repr, DecidableEq

/-- AP/FP crediting and the effects tick applied to a player that is online
and inside the keepalive window (World.cpp lines 122-127). -/
def creditPlayer (ap : Int) (p : SimPlayer) : SimPlayer :=
  { p with
    actionPoints := p.actionPoints + ap
    fightPoints := p.fightPoints + ap
    effectsTicks := p.effectsTicks + 1 }

/-- Modelled from the spec: `Player::save` is outside World.cpp; the spec's
staggered-saves scenario ("the other two retain old lastSaveTime, after
three ticks all three are saved") implies persisting refreshes the player's
last-save timestamp. -/
def savePlayer (now : Int) (p : SimPlayer) : SimPlayer :=
  { p with lastsavetime := now }

/-- The save-eligibility test of the claim: online, inside the keepalive
window, and due for a save. -/
def saveEligible (clientTimeout saveInterval now : Int) (p : SimPlayer) : Prop :=
  p.online = true ∧ 0 ≤ now - p.lastkeepalive ∧ now - p.lastkeepalive ≤ clientTimeout ∧
    saveInterval ≤ now - p.lastsavetime

instance (clientTimeout saveInterval now : Int) :
    DecidablePred (saveEligible clientTimeout saveInterval now) := fun p => by
  unfold saveEligible; infer_instance

/-- Index of the first list element satisfying a predicate. -/
def firstIdxWhere (p : α → Prop) [DecidablePred p] : List α → Option Nat
  | [] => none
  | a :: rest => if p a then some 0 else (firstIdxWhere p rest).map (· + 1)

/-- Iteration phase of `World::checkPlayers`: processes the players in
order, threading the `savedOnePlayer` flag; returns the updated players and
the list of (zero-based) indices at which `player.save()` was called. -/
def checkPlayersGo (clientTimeout saveInterval now ap : Int) (savedOne : Bool) :
    List SimPlayer → List SimPlayer × List Nat
  | [] => ([], [])
  | p :: rest =>
    if p.online = true then
      if 0 ≤ now - p.lastkeepalive ∧ now - p.lastkeepalive ≤ clientTimeout then
        let p' := creditPlayer ap p
        if savedOne = false ∧ saveInterval ≤ now - p.lastsavetime then
          let r := checkPlayersGo clientTimeout saveInterval now ap true rest
          (savePlayer now p' :: r.1, 0 :: r.2.map (· + 1))
        else
          let r := checkPlayersGo clientTimeout saveInterval now ap savedOne rest
          (p' :: r.1, r.2.map (· + 1))
      else
        let r := checkPlayersGo clientTimeout saveInterval now ap savedOne rest
        ({ p with shutdownSent := true } :: r.1, r.2.map (· + 1))
    else
      let r := checkPlayersGo clientTimeout saveInterval now ap savedOne rest
      (p :: r.1, r.2.map (· + 1))

/-- Full `World::checkPlayers`: the iteration phase starting with a fresh
save budget, followed by erasure of the offline (lost) players. -/
def checkPlayers (clientTimeout saveInterval now ap : Int) (ps : List SimPlayer) :
    List SimPlayer × List Nat :=
  let r := checkPlayersGo clientTimeout saveInterval now ap false ps
  (r.1.filter (fun p => p.online), r.2)

theorem checkPlayersGo_true_no_save (clientTimeout saveInterval now ap : Int)
    (ps : List SimPlayer) :
    (checkPlayersGo clientTimeout saveInterval now ap true ps).2 = [] ∧
    (checkPlayersGo clientTimeout saveInterval now ap true ps).1.map SimPlayer.lastsavetime
      = ps.map SimPlayer.lastsavetime := by
  induction ps with
  | nil => simp [checkPlayersGo]
  | cons p rest ih =>
    simp only [checkPlayersGo]
    split
    · split
      · simp [ih.1, ih.2, creditPlayer]
      · simp [ih.1, ih.2]
    · simp [ih.1, ih.2]

/-- C5: in a single player pass, `player.save()` is called at most once:
the save log is exactly the index of the first player in iteration order
that is online, inside the keepalive window and due for a save (empty when
no such player exists), and every other player's `lastSaveTime` is
unchanged by the pass. -/
theorem checkPlayers_save_once (clientTimeout saveInterval now ap : Int) (ps : List SimPlayer) :
    (checkPlayersGo clientTimeout saveInterval now ap false ps).2
        = (firstIdxWhere (saveEligible clientTimeout saveInterval now) ps).toList ∧
    (checkPlayersGo clientTimeout saveInterval now ap false ps).1.map SimPlayer.lastsavetime
      = (match firstIdxWhere (saveEligible clientTimeout saveInterval now) ps with
          | none => ps.map SimPlayer.lastsavetime
          | some i => (ps.map SimPlayer.lastsavetime).set i now) := by
  induction ps with
  | nil => simp [checkPlayersGo, firstIdxWhere]
  | cons p rest ih =>
    by_cases h1 : p.online = true
    · by_cases h2a : 0 ≤ now - p.lastkeepalive
      · by_cases h2b : now - p.lastkeepalive ≤ clientTimeout
        · by_cases h3 : saveInterval ≤ now - p.lastsavetime
          · have ha := checkPlayersGo_true_no_save clientTimeout saveInterval now ap rest
            simp [checkPlayersGo, firstIdxWhere, saveEligible, h1, h2a, h2b, h3, ha.1, ha.2,
              savePlayer, creditPlayer]
          · cases ho : firstIdxWhere (saveEligible clientTimeout saveInterval now) rest with
            | none =>
              simp [ho] at ih
              simp [checkPlayersGo, firstIdxWhere, saveEligible, h1, h2a, h2b, h3, ho, ih.1, ih.2,
                creditPlayer]
            | some i =>
              simp [ho] at ih
              simp [checkPlayersGo, firstIdxWhere, saveEligible, h1, h2a, h2b, h3, ho, ih.1, ih.2,
                creditPlayer]
        · cases ho : firstIdxWhere (saveEligible clientTimeout saveInterval now) rest with
          | none =>
            simp [ho] at ih
            simp [checkPlayersGo, firstIdxWhere, saveEligible, h1, h2a, h2b, ho, ih.1, ih.2]
          | some i =>
            simp [ho] at ih
            simp [checkPlayersGo, firstIdxWhere, saveEligible, h1, h2a, h2b, ho, ih.1, ih.2]
      · cases ho : firstIdxWhere (saveEligible clientTimeout saveInterval now) rest with
        | none =>
          simp [ho] at ih
          simp [checkPlayersGo, firstIdxWhere, saveEligible, h1, h2a, ho, ih.1, ih.2]
        | some i =>
          simp [ho] at ih
          simp [checkPlayersGo, firstIdxWhere, saveEligible, h1, h2a, ho, ih.1, ih.2]
    · cases ho : firstIdxWhere (saveEligible clientTimeout saveInterval now) rest with
      | none =>
        simp [ho] at ih
        simp [checkPlayersGo, firstIdxWhere, saveEligible, h1, ho, ih.1, ih.2]
      | some i =>
        simp [ho] at ih
        simp [checkPlayersGo, firstIdxWhere, saveEligible, h1, ho, ih.1, ih.2]

/-! ## Monster and NPC passes (`World::checkMonsters` lines 247-548,
`World::checkNPC` lines 564-591)

`ap` is a member of `World`: `checkMonsters` decrements it in place
(lines 258-260) and `checkNPC`, which runs afterwards in the same tick,
reads the same member.  The per-character AI bodies depend on scripts and
random draws; they are abstracted into recorded events (`acted`, `cycled`),
while the crediting of AP/FP, the effects tick, and the early-out decision
(`!isPlayerNearby && !onRoute`) are modelled faithfully.  `canAct` and
`isPlayerNearby` are outcomes of collaborator code outside World.cpp and
are carried as per-character fields. -/

structure SimMonster where
  alive : Bool
  actionPoints : Int
  fightPoints : Int
  effectsTicks : Nat
  canAct : Bool
  playerNearby : Bool
  onRoute : Bool
  acted : Bool
  deriving Repr, DecidableEq

structure SimNPC where
  alive : Bool
  actionPoints : Int
  effectsTicks : Nat
  hitpoints : Int
  canAct : Bool
  hasScript : Bool
  playerNearby : Bool
  onRoute : Bool
  cycled : Bool
  deriving Repr, DecidableEq

/-- Per-monster step of `World::checkMonsters` (lines 264-527): an alive
monster is credited AP and FP and has its effects ticked BEFORE any
early-out test; then, if it can act, the AI body runs unless no player is
within `MAX_ACT_RANGE` and the monster is not on a waypoint route.  The AI
body itself (combat, approach, wander) is recorded as the event `acted`. -/
def monsterTick (ap : Int) (m : SimMonster) : SimMonster :=
  if m.alive = true then
    let m := { m with
      actionPoints := m.actionPoints + ap
      fightPoints := m.fightPoints + ap
      effectsTicks := m.effectsTicks + 1 }
    if m.canAct = true then
      if m.playerNearby = false ∧ m.onRoute = false then
        { m with acted := false }
      else
        { m with acted := true }
    else
      { m with acted := false }
  else
    m

/-- Per-NPC step of `World::checkNPC` (lines 567-589): an alive NPC is
credited AP (only AP; NPCs get no fight points) and has its effects ticked
BEFORE the early-out test; the script `nextCycle` invocation is recorded as
the event `cycled`.  A dead NPC has its hitpoints reset to `maxHp`. -/
def npcTick (maxHp ap : Int) (n : SimNPC) : SimNPC :=
  if n.alive = true then
    let n := { n with
      actionPoints := n.actionPoints + ap
      effectsTicks := n.effectsTicks + 1 }
    if n.playerNearby = false ∧ n.onRoute = false then
      { n with cycled := false }
    else if n.canAct = true ∧ n.hasScript = true then
      { n with cycled := true }
    else
      { n with cycled := false }
  else
    { n with hitpoints := maxHp }

/-- World state shared by the monster and NPC passes of one tick: the `ap`
member of `World` plus the two populations. -/
structure PassState where
  ap : Int
  monsters : List SimMonster
  npcs : List SimNPC
  deriving Repr, DecidableEq

/-- `World::checkMonsters` without the spawn subphase and end-of-pass
bookkeeping (which do not touch `ap` or the crediting): after the spawn
check it decrements the shared `ap` member by 1 when `ap > 1`
(lines 258-260), then iterates all monsters with the decremented value. -/
def checkMonsters (s : PassState) : PassState :=
  let ap := if 1 < s.ap then s.ap - 1 else s.ap
  { s with ap := ap, monsters := s.monsters.map (monsterTick ap) }

/-- `World::checkNPC`: iterates the NPCs, crediting them from the shared
`ap` member as it stands when the NPC pass runs. -/
def checkNPC (maxHp : Int) (s : PassState) : PassState :=
  { s with npcs := s.npcs.map (npcTick maxHp s.ap) }

/-- C3 counterexample: a tick with `ap = 3` and a single fresh NPC.  The
monster pass decrements the shared `ap` member to 2, and the NPC pass that
follows credits the NPC with 2, not with the undecremented 3 the claim
asserts. -/
theorem checkNPC_sees_decremented_ap :
    ((checkNPC 100 (checkMonsters ⟨3, [], [⟨true, 0, 0, 100, true, true, true, false, false⟩]⟩)).npcs.map
        SimNPC.actionPoints) = [2] ∧
    ¬ ((checkNPC 100 (checkMonsters ⟨3, [], [⟨true, 0, 0, 100, true, true, true, false, false⟩]⟩)).npcs.map
        SimNPC.actionPoints) = [3] := by
  decide

/-- C3 amended: when `ap > 1`, the monster pass decrements the shared `ap`
by 1 immediately after the spawn check; the decremented value is used for
every monster in the tick AND ALSO for the NPC pass that follows in the
same tick (the decrement is never undone). -/
theorem monster_pass_ap_decrement (maxHp : Int) (s : PassState) (h : 1 < s.ap) :
    (checkMonsters s).ap = s.ap - 1 ∧
    (checkMonsters s).monsters = s.monsters.map (monsterTick (s.ap - 1)) ∧
    (checkNPC maxHp (checkMonsters s)).ap = s.ap - 1 ∧
    (checkNPC maxHp (checkMonsters s)).npcs = s.npcs.map (npcTick maxHp (s.ap - 1)) ∧
    (∀ m ∈ s.monsters, m.alive = true →
      (monsterTick (s.ap - 1) m).actionPoints = m.actionPoints + (s.ap - 1) ∧
      (monsterTick (s.ap - 1) m).fightPoints = m.fightPoints + (s.ap - 1)) ∧
    (∀ n ∈ s.npcs, n.alive = true →
      (npcTick maxHp (s.ap - 1) n).actionPoints = n.actionPoints + (s.ap - 1)) := by
  unfold checkMonsters checkNPC
  rw [if_pos h]
  refine ⟨rfl, rfl, rfl, rfl, ?_, ?_⟩
  · intro m _ halive
    unfold monsterTick
    rw [if_pos halive]
    refine ⟨?_, ?_⟩ <;> (dsimp only; split <;> (try split) <;> rfl)
  · intro n _ halive
    unfold npcTick
    rw [if_pos halive]
    dsimp only
    split <;> (try split) <;> rfl

/-- Witness for C3's amended theorem: a tick with `ap = 3` decrements the
shared member to 2. -/
theorem monster_pass_ap_decrement_witness :
    (checkMonsters ⟨3, [], []⟩).ap = 3 - 1 :=
  (monster_pass_ap_decrement 100 ⟨3, [], []⟩ (by decide)).1

/-- C4 counterexample: an alive monster with no player within
`MAX_ACT_RANGE` and not on a waypoint route is nevertheless credited by the
monster pass: with `ap = 2` its action points change from 0 to 2, its fight
points likewise, and its effects are ticked, contradicting the claim that
they are left unchanged. -/
theorem monster_early_out_credits_anyway :
    (monsterTick 2 ⟨true, 0, 0, 0, true, false, false, false⟩).actionPoints = 2 ∧
    (monsterTick 2 ⟨true, 0, 0, 0, true, false, false, false⟩).fightPoints = 2 ∧
    (monsterTick 2 ⟨true, 0, 0, 0, true, false, false, false⟩).effectsTicks = 1 ∧
    ¬ ((monsterTick 2 ⟨true, 0, 0, 0, true, false, false, false⟩).actionPoints = 0) := by
  decide

/-- C4 amended: for every live monster and live NPC with no player within
`MAX_ACT_RANGE` and not on a waypoint route, the passes skip only the AI
action (no monster behaviour runs, no NPC script `nextCycle` is invoked),
but both passes still credit the character first: monster AP and FP are
increased by `ap`, NPC AP is increased by `ap`, and effects are ticked. -/
theorem pass_early_out_skips_action_only (maxHp : Int) :
    (∀ (ap : Int) (m : SimMonster), m.alive = true → m.playerNearby = false → m.onRoute = false →
      (monsterTick ap m).acted = false ∧
      (monsterTick ap m).actionPoints = m.actionPoints + ap ∧
      (monsterTick ap m).fightPoints = m.fightPoints + ap ∧
      (monsterTick ap m).effectsTicks = m.effectsTicks + 1) ∧
    (∀ (ap : Int) (n : SimNPC), n.alive = true → n.playerNearby = false → n.onRoute = false →
      (npcTick maxHp ap n).cycled = false ∧
      (npcTick maxHp ap n).actionPoints = n.actionPoints + ap ∧
      (npcTick maxHp ap n).effectsTicks = n.effectsTicks + 1) := by
  constructor
  · intro ap m halive hnear hroute
    unfold monsterTick
    rw [if_pos halive]
    dsimp only
    by_cases hca : m.canAct = true
    · simp [hca, hnear, hroute]
    · simp [hca]
  · intro ap n halive hnear hroute
    unfold npcTick
    rw [if_pos halive]
    dsimp only
    simp [hnear, hroute]

/-- Witness for C4's amended theorem: a concrete sleeping monster and NPC
with `ap = 2` are credited but take no action. -/
theorem pass_early_out_skips_action_only_witness :
    (monsterTick 2 ⟨true, 5, 5, 0, true, false, false, false⟩).acted = false ∧
    (monsterTick 2 ⟨true, 5, 5, 0, true, false, false, false⟩).actionPoints = 5 + 2 ∧
    (monsterTick 2 ⟨true, 5, 5, 0, true, false, false, false⟩).fightPoints = 5 + 2 ∧
    (monsterTick 2 ⟨true, 5, 5, 0, true, false, false, false⟩).effectsTicks = 0 + 1 :=
  (pass_early_out_skips_action_only 100).1 2 ⟨true, 5, 5, 0, true, false, false, false⟩
    rfl rfl rfl

/-! ## Bounded random wander (`World::checkMonsters`, World.cpp lines 383-462)

The direction enumeration and `position::move` live in headers outside the
given source; the direction-to-offset map is modelled from the spec (east
and west move along the x axis, north and south along the y axis,
diagonals one step in each).  The two `switch` statements that remap the
drawn direction at the spawn-area border are translated verbatim. -/

inductive Dir where
  | north
  | northeast
  | east
  | southeast
  | south
  | southwest
  | west
  | northwest
  deriving Repr, DecidableEq

/-- Modelled from the spec: the x/y offset of one step in a direction
(`position::move` is outside World.cpp; the L-infinity wander claims only
use that east/west is the x axis, north/south the y axis, and each step
changes each coordinate by at most 1). -/
def dirOffset : Dir → Int × Int
  | Dir.north => (0, -1)
  | Dir.northeast => (1, -1)
  | Dir.east => (1, 0)
  | Dir.southeast => (1, 1)
  | Dir.south => (0, 1)
  | Dir.southwest => (-1, 1)
  | Dir.west => (-1, 0)
  | Dir.northwest => (-1, -1)

structure Pos where
  x : Int
  y : Int
  z : Int
  deriving Repr, DecidableEq

def Pos.move (p : Pos) (d : Dir) : Pos :=
  { p with x := p.x + (dirOffset d).1, y := p.y + (dirOffset d).2 }

/-- The first remap `switch` (World.cpp lines 396-423): flips the east/west
component when the candidate position leaves the spawn range on the x
axis. -/
def flipEastWest : Dir → Dir
  | Dir.northeast => Dir.northwest
  | Dir.east => Dir.west
  | Dir.southeast => Dir.southwest
  | Dir.southwest => Dir.southeast
  | Dir.west => Dir.east
  | Dir.northwest => Dir.northeast
  | d => d

/-- The second remap `switch` (World.cpp lines 427-454): flips the
north/south component when the candidate position leaves the spawn range on
the y axis. -/
def flipNorthSouth : Dir → Dir
  | Dir.north => Dir.south
  | Dir.northeast => Dir.southeast
  | Dir.southeast => Dir.northeast
  | Dir.south => Dir.north
  | Dir.southwest => Dir.northwest
  | Dir.northwest => Dir.southwest
  | d => d

structure SpawnArea where
  x : Int
  y : Int
  range : Int
  deriving Repr, DecidableEq

/-- The remapped direction for a monster at `p` with spawn `s` drawing
direction `d` (World.cpp lines 388-455): offsets are measured from the
candidate position `p.move d`, and each axis overflow flips the
corresponding component. -/
def wanderDir (p : Pos) (s : SpawnArea) (d : Dir) : Dir :=
  let newpos := p.move d
  let xoffs := s.x - newpos.x
  let yoffs := s.y - newpos.y
  let d1 := if s.range < cAbs xoffs then flipEastWest d else d
  if s.range < cAbs yoffs then flipNorthSouth d1 else d1

/-- One bounded random wander step: the monster moves from `p` in the
remapped direction (World.cpp line 458 applies `move` to the monster's
original position). -/
def wanderStep (p : Pos) (s : SpawnArea) (d : Dir) : Pos :=
  p.move (wanderDir p s d)

theorem cAbs_neg (x : Int) : cAbs (-x) = cAbs x := by
  unfold cAbs; split_ifs <;> omega

/-- The two remap switches negate exactly the direction component of the
overflowing axis: the offset of the remapped direction is the offset of the
drawn direction with the x component negated when the candidate overflows
in x, and the y component negated when it overflows in y. -/
theorem wanderDir_offset (p : Pos) (s : SpawnArea) (d : Dir) :
    dirOffset (wanderDir p s d)
      = (if s.range < cAbs (s.x - (p.move d).x) then -(dirOffset d).1 else (dirOffset d).1,
         if s.range < cAbs (s.y - (p.move d).y) then -(dirOffset d).2 else (dirOffset d).2) := by
  unfold wanderDir
  cases d <;> dsimp only [Pos.move, dirOffset] <;> split_ifs <;>
    simp [flipEastWest, flipNorthSouth, dirOffset]

/-- One axis of the reflection bound: starting within `r + 1` of the
center, a step of at most one, reflected when the candidate overflows `r`,
stays within `r + 1`. -/
theorem axis_reflect (r t dx : Int) (hr : 0 ≤ r) (ht : cAbs t ≤ r + 1)
    (hdx : cAbs dx ≤ 1) :
    cAbs (t + (if r < cAbs (t + dx) then -dx else dx)) ≤ r + 1 := by
  rw [cAbs_le_iff] at ht hdx
  unfold cAbs
  split_ifs <;> omega

/-- C6: the drawn direction has its east/west component flipped exactly
when the candidate position overflows the spawn range on the x axis and its
north/south component flipped exactly when it overflows on the y axis
(components orthogonal to an overflow axis are unchanged), and a wander
step from any position within L-infinity distance `range + 1` of the spawn
lands within distance `range + 1` again. -/
theorem wander_reflection_bound (p : Pos) (s : SpawnArea) (d : Dir)
    (hr : 0 ≤ s.range)
    (hx : cAbs (p.x - s.x) ≤ s.range + 1) (hy : cAbs (p.y - s.y) ≤ s.range + 1) :
    ((dirOffset (wanderDir p s d)).1
        = (if s.range < cAbs (s.x - (p.move d).x) then -(dirOffset d).1 else (dirOffset d).1)) ∧
    ((dirOffset (wanderDir p s d)).2
        = (if s.range < cAbs (s.y - (p.move d).y) then -(dirOffset d).2 else (dirOffset d).2)) ∧
    cAbs ((wanderStep p s d).x - s.x) ≤ s.range + 1 ∧
    cAbs ((wanderStep p s d).y - s.y) ≤ s.range + 1 := by
  have hoff := wanderDir_offset p s d
  have hfst : (dirOffset (wanderDir p s d)).1
      = if s.range < cAbs (s.x - (p.move d).x) then -(dirOffset d).1 else (dirOffset d).1 := by
    rw [hoff]
  have hsnd : (dirOffset (wanderDir p s d)).2
      = if s.range < cAbs (s.y - (p.move d).y) then -(dirOffset d).2 else (dirOffset d).2 := by
    rw [hoff]
  have hdx : cAbs (dirOffset d).1 ≤ 1 := by cases d <;> decide
  have hdy : cAbs (dirOffset d).2 ≤ 1 := by cases d <;> decide
  have ex : s.x - (p.move d).x = -((p.x - s.x) + (dirOffset d).1) := by
    simp only [Pos.move]; ring
  have ey : s.y - (p.move d).y = -((p.y - s.y) + (dirOffset d).2) := by
    simp only [Pos.move]; ring
  refine ⟨hfst, hsnd, ?_, ?_⟩
  · have goalx : (wanderStep p s d).x - s.x
        = (p.x - s.x) + (if s.range < cAbs ((p.x - s.x) + (dirOffset d).1)
            then -(dirOffset d).1 else (dirOffset d).1) := by
      simp only [wanderStep, Pos.move]
      rw [hfst, ex, cAbs_neg]
      ring
    rw [goalx]
    exact axis_reflect s.range (p.x - s.x) (dirOffset d).1 hr hx hdx
  · have goaly : (wanderStep p s d).y - s.y
        = (p.y - s.y) + (if s.range < cAbs ((p.y - s.y) + (dirOffset d).2)
            then -(dirOffset d).2 else (dirOffset d).2) := by
      simp only [wanderStep, Pos.move]
      rw [hsnd, ey, cAbs_neg]
      ring
    rw [goaly]
    exact axis_reflect s.range (p.y - s.y) (dirOffset d).2 hr hy hdy

/-- Witness for C6 at the spec's wander scenario: spawn `(100, 100)` with
range 5, monster at `(105, 100)`, drawn direction east; the step stays
within range 6 of the spawn (it in fact lands on `(104, 100)`). -/
theorem wander_reflection_bound_witness :
    cAbs ((wanderStep ⟨105, 100, 0⟩ ⟨100, 100, 5⟩ Dir.east).x - 100) ≤ 5 + 1 :=
  (wander_reflection_bound ⟨105, 100, 0⟩ ⟨100, 100, 5⟩ Dir.east (by decide) (by decide)
    (by decide)).2.2.1

/-! ## Target query (`World::getTargetsInRange`, World.cpp lines 550-562)

A character here is anything the query can return (player or monster): a
live/dead flag and a position.  The spatial primitive
`findAllAliveCharactersInRangeOf` lives in the population containers
outside World.cpp. -/

structure SimChar where
  alive : Bool
  pos : Pos
  deriving Repr, DecidableEq

/-- The `Range` argument of the spatial query: a horizontal radius and a
vertical (z) radius. -/
structure QueryRange where
  radius : Int
  zRadius : Int
  deriving Repr, DecidableEq

/-- Modelled from the spec: position `q` is within a `Range` of `center`
(the population containers' spatial query is outside World.cpp; the spec
defines proximity by the L-infinity metric on x/y, with the z band given by
the range's `zRadius`). -/
def inQueryRange (center : Pos) (r : QueryRange) (q : Pos) : Prop :=
  cAbs (q.x - center.x) ≤ r.radius ∧ cAbs (q.y - center.y) ≤ r.radius ∧
    cAbs (q.z - center.z) ≤ r.zRadius

instance (center : Pos) (r : QueryRange) (q : Pos) : Decidable (inQueryRange center r q) := by
  unfold inQueryRange; infer_instance

/-- Modelled from the spec: `findAllAliveCharactersInRangeOf` returns all
live characters of a population within the given range of a position. -/
def findAllAliveCharactersInRangeOf (chars : List SimChar) (pos : Pos) (r : QueryRange) :
    List SimChar :=
  chars.filter (fun c => c.alive = true ∧ inQueryRange pos r c.pos)

/-- Embedding of `World::getTargetsInRange`: queries players and monsters
with the given radius and a z radius of 0, concatenates the players with
the monsters, dropping every monster whose position equals `pos`
(the `remove_copy_if` at lines 558-559). -/
def getTargetsInRange (players monsters : List SimChar) (pos : Pos) (radius : Int) :
    List SimChar :=
  let range : QueryRange := { radius := radius, zRadius := 0 }
  let ps := findAllAliveCharactersInRangeOf players pos range
  let ms := findAllAliveCharactersInRangeOf monsters pos range
  ps ++ ms.filter (fun m => ¬ (pos = m.pos))

/-- C7: `getTargetsInRange` returns exactly the alive players within range
plus the alive monsters within range that are not colocated with the query
position; dead characters are never returned. -/
theorem getTargetsInRange_members (players monsters : List SimChar) (pos : Pos) (radius : Int) :
    (∀ c, c ∈ getTargetsInRange players monsters pos radius ↔
      ((c ∈ players ∧ c.alive = true ∧ inQueryRange pos ⟨radius, 0⟩ c.pos) ∨
       (c ∈ monsters ∧ c.alive = true ∧ inQueryRange pos ⟨radius, 0⟩ c.pos ∧ ¬ pos = c.pos))) ∧
    (∀ c ∈ getTargetsInRange players monsters pos radius, c.alive = true) := by
  constructor
  · intro c
    simp only [getTargetsInRange, findAllAliveCharactersInRangeOf, List.mem_append,
      List.mem_filter, decide_eq_true_eq]
    tauto
  · intro c hc
    simp only [getTargetsInRange, findAllAliveCharactersInRangeOf, List.mem_append,
      List.mem_filter, decide_eq_true_eq] at hc
    tauto

/-- Witness for C7: a live player in range is returned; the query on one
live in-range player and one colocated live monster returns exactly the
player. -/
theorem getTargetsInRange_members_witness :
    ⟨true, ⟨1, 0, 0⟩⟩ ∈ getTargetsInRange [⟨true, ⟨1, 0, 0⟩⟩] [⟨true, ⟨0, 0, 0⟩⟩] ⟨0, 0, 0⟩ 2 :=
  ((getTargetsInRange_members [⟨true, ⟨1, 0, 0⟩⟩] [⟨true, ⟨0, 0, 0⟩⟩] ⟨0, 0, 0⟩ 2).1
    ⟨true, ⟨1, 0, 0⟩⟩).mpr (Or.inl ⟨by decide, by decide, by decide⟩)

/-- C10: `getTargetsInRange` queries with a z radius of 0, so every
returned character is on the same z level as the query position. -/
theorem getTargetsInRange_same_z (players monsters : List SimChar) (pos : Pos) (radius : Int) :
    ∀ c ∈ getTargetsInRange players monsters pos radius, c.pos.z = pos.z := by
  intro c hc
  simp only [getTargetsInRange, findAllAliveCharactersInRangeOf, List.mem_append,
    List.mem_filter, decide_eq_true_eq] at hc
  have hz : cAbs (c.pos.z - pos.z) ≤ 0 := by
    rcases hc with ⟨_, _, _, _, h⟩ | ⟨⟨_, _, _, _, h⟩, _⟩ <;> exact h
  rw [cAbs_le_iff] at hz
  omega

/-- Witness for C10: a concrete returned character is on the query
position's z level. -/
theorem getTargetsInRange_same_z_witness :
    (⟨true, ⟨1, 0, 7⟩⟩ : SimChar).pos.z = (⟨0, 0, 7⟩ : Pos).z :=
  getTargetsInRange_same_z [⟨true, ⟨1, 0, 7⟩⟩] [⟨true, ⟨0, 5, 7⟩⟩] ⟨0, 0, 7⟩ 2
    ⟨true, ⟨1, 0, 7⟩⟩ (by decide)

/-! ## Spawn point loading (`World::initRespawns`, World.cpp lines 193-240)

The database query is a collaborator; its outcome is passed in as an
exception-or-rows value.  A successful query with rows appends a spawn
point per row and returns true; an empty result returns false; a thrown
exception is caught and returns false. -/

structure SpawnRow where
  id : Nat
  x : Int
  y : Int
  z : Int
  range : Int
  spawnrange : Nat
  minspawntime : Nat
  maxspawntime : Nat
  spawnall : Bool
  deriving Repr, DecidableEq

/-- Embedding of `World::initRespawns`: clears the spawn list, then loads
the spawnpoint table; returns the success flag and the resulting spawn
list. -/
def initRespawns (queryResult : Except String (List SpawnRow)) : Bool × List SpawnRow :=
  match queryResult with
  | Except.error _ => (false, [])
  | Except.ok rows => if rows.isEmpty then (false, []) else (true, rows)

/-- C9: `initRespawns` returns true if and only if the query ran without
throwing and produced at least one row; an empty result and a thrown
exception both yield false. -/
theorem initRespawns_true_iff (queryResult : Except String (List SpawnRow)) :
    (initRespawns queryResult).1 = true ↔
      ∃ rows, queryResult = Except.ok rows ∧ rows ≠ [] := by
  cases queryResult with
  | error e => simp [initRespawns]
  | ok rows =>
    cases rows with
    | nil => simp [initRespawns]
    | cons r rest => simp [initRespawns]

/-! ## Command dispatch (`World::executeUserCommand`, World.cpp lines 659-675)

The input is matched against the pattern: a bang, then one or more
non-space characters (first capture), then an optional space, then a
dot-star group (second capture), anchored at both ends.  `std::regex`
defaults to the ECMAScript grammar, where the dot metacharacter matches
any character except a line terminator, quantifiers are greedy, and the
engine backtracks.  Strings are embedded as `List Char`. -/

/-- The ECMAScript line terminators, which the dot metacharacter does not
match. -/
def isLineTerm (c : Char) : Bool :=
  c == '\n' || c == '\r' || c == '\u2028' || c == '\u2029'

/-- Whether the dot-star group can match this entire string. -/
def dotAll (l : List Char) : Bool := l.all (fun c => !(isLineTerm c))

/-- Backtracking matcher for the part of the pattern after the bang: tries
the greedy name first (the longest non-space run, length `i + 1`), then the
optional separator space (greedily), then requires the dot-star group to
match the remainder; on failure it shortens the name, as the ECMAScript
engine does.  Returns the two capture groups. -/
def tryName : Nat → List Char → Option (List Char × List Char)
  | 0, _ => none
  | i + 1, rest =>
    match rest.drop (i + 1) with
    | t0 :: t2 =>
      if t0 = ' ' then
        if dotAll t2 then some (rest.take (i + 1), t2)
        else if dotAll (t0 :: t2) then some (rest.take (i + 1), t0 :: t2)
        else tryName i rest
      else if dotAll (t0 :: t2) then some (rest.take (i + 1), t0 :: t2)
      else tryName i rest
    | [] => some (rest.take (i + 1), [])

/-- Full match of the command pattern against the input: the input must
start with a bang, and the name group can only match within the leading
non-space run of the remainder. -/
def regexMatchCommand (input : List Char) : Option (List Char × List Char) :=
  match input with
  | [] => none
  | c :: rest =>
    if c = '!' then tryName ((rest.takeWhile (fun x => x != ' ')).length) rest else none

/-- Association-list lookup of a command name in the command map
(`CommandMap::find`). -/
def lookupCmd : List (List Char × Nat) → List Char → Option Nat
  | [], _ => none
  | (k, h) :: rest, n => if k = n then some h else lookupCmd rest n

/-- Embedding of `World::executeUserCommand`: on a regex match, looks the
first capture up in the command map and, on a hit, invokes the handler
with the second capture (returned as the handler id and its argument);
returns `none` (false) when the regex does not match or the name is
unknown. -/
def executeUserCommand (commands : List (List Char × Nat)) (input : List Char) :
    Option (Nat × List Char) :=
  match regexMatchCommand input with
  | none => none
  | some (nm, args) =>
    match lookupCmd commands nm with
    | none => none
    | some h => some (h, args)

theorem takeWhile_nonspace (n a : List Char) (hn : ∀ c ∈ n, ¬ c = ' ') :
    ((n ++ ' ' :: a).takeWhile (fun x => x != ' ')) = n := by
  induction n with
  | nil => simp [List.takeWhile_cons]
  | cons c n' ih =>
    have hc : (c != ' ') = true := by
      have := hn c (List.mem_cons_self c n')
      simpa [bne] using this
    have ih' := ih (fun x hx => hn x (List.mem_cons_of_mem c hx))
    simp [List.takeWhile_cons, hc, ih']

theorem tryName_exact (c : Char) (n' a : List Char) (hdot : dotAll a = true) :
    tryName (n'.length + 1) ((c :: n') ++ ' ' :: a) = some (c :: n', a) := by
  have ht : ((c :: n') ++ ' ' :: a).take (n'.length + 1) = c :: n' :=
    List.take_left (c :: n') (' ' :: a)
  have hd : ((c :: n') ++ ' ' :: a).drop (n'.length + 1) = ' ' :: a :=
    List.drop_left (c :: n') (' ' :: a)
  simp only [tryName, ht, hd, hdot]
  simp

/-- C8 counterexample: with the map containing handler 7 under the name
consisting of the letter g, dispatching the input built from that name and
the argument x-newline-y fails to match the regex (the dot metacharacter
cannot match the newline), so no handler is invoked and the call returns
false, against the claim that every such input invokes the handler. -/
theorem executeUserCommand_newline_arg :
    executeUserCommand [(['g'], 7)] ('!' :: (['g'] ++ ' ' :: ['x', '\n', 'y'])) = none ∧
    ¬ (executeUserCommand [(['g'], 7)] ('!' :: (['g'] ++ ' ' :: ['x', '\n', 'y']))
        = some (7, ['x', '\n', 'y'])) := by
  decide

/-- C8 amended: for every handler name in the command map that is nonempty
and contains no space, and every argument string with no line terminator
(leading spaces are captured into the argument, so no leading-space
restriction is needed for the round trip), dispatching bang-name-space-
argument invokes that handler with exactly that argument and returns true;
and whenever the extracted name is not in the map (or the regex fails to
match), no handler is invoked and the call returns false. -/
theorem executeUserCommand_roundtrip :
    (∀ (commands : List (List Char × Nat)) (n a : List Char) (h : Nat),
      n ≠ [] → (∀ c ∈ n, ¬ c = ' ') → dotAll a = true →
      lookupCmd commands n = some h →
      executeUserCommand commands ('!' :: (n ++ ' ' :: a)) = some (h, a)) ∧
    (∀ (commands : List (List Char × Nat)) (input : List Char),
      (∀ nm args, regexMatchCommand input = some (nm, args) → lookupCmd commands nm = none) →
      executeUserCommand commands input = none) := by
  constructor
  · intro commands n a h hne hns hdot hlook
    obtain ⟨c, n', rfl⟩ : ∃ c n', n = c :: n' := by
      cases n with
      | nil => exact absurd rfl hne
      | cons c n' => exact ⟨c, n', rfl⟩
    have hm : regexMatchCommand ('!' :: ((c :: n') ++ ' ' :: a)) = some (c :: n', a) := by
      have h1 := takeWhile_nonspace (c :: n') a hns
      have h2 := tryName_exact c n' a hdot
      simp only [List.cons_append] at h1 h2
      simp only [regexMatchCommand]
      simp [h1, h2]
    simp only [List.cons_append] at hm
    simp [executeUserCommand, hm, hlook]
  · intro commands input hmiss
    cases hm : regexMatchCommand input with
    | none => simp [executeUserCommand, hm]
    | some pr =>
      obtain ⟨nm, args⟩ := pr
      simp [executeUserCommand, hm, hmiss nm args hm]

/-- Witness for C8's amended theorem: the handler registered under the
two-letter name g-o is invoked with the argument x-space-y. -/
theorem executeUserCommand_roundtrip_witness :
    executeUserCommand [(['g', 'o'], 5)] ('!' :: (['g', 'o'] ++ ' ' :: ['x', ' ', 'y']))
      = some (5, ['x', ' ', 'y']) :=
  executeUserCommand_roundtrip.1 [(['g', 'o'], 5)] ['g', 'o'] ['x', ' ', 'y'] 5
    (by decide) (by decide) (by decide) (by decide)

end Illarion
